import Mathlib

/-!
Shallow embedding of the Arkanoid game core (src/Arkanoid2011/main.cpp, the
SFML game section).  Screen coordinates and velocities are modelled as `Int`:
every constant of the game (window 800 x 600, brick 60 x 20, paddle 60 x 20,
ball radius 10, speed 8, grid spacing 3, offset 22) is an integer, the
half-extents 30 and 10 are integers, and every position update adds integer
deltas, so the C++ `float` arithmetic is exact on these values and the
integer model coincides with it.  Machine ints (hit counters, lives) are
`Int`; C++ `bool` is `Bool`.
-/

namespace Ark

/-! ## Screen constants -/

def wndWidth : ℤ := 800
def wndHeight : ℤ := 600

/-! ## Geometry primitives -/

structure Rectangle where
  x : ℤ
  y : ℤ
  width : ℤ
  height : ℤ
deriving DecidableEq

def Rectangle.left (r : Rectangle) : ℤ := r.x - r.width / 2
def Rectangle.right (r : Rectangle) : ℤ := r.x + r.width / 2
def Rectangle.top (r : Rectangle) : ℤ := r.y - r.height / 2
def Rectangle.bottom (r : Rectangle) : ℤ := r.y + r.height / 2

structure Circle where
  x : ℤ
  y : ℤ
  radius : ℤ
deriving DecidableEq

def Circle.left (c : Circle) : ℤ := c.x - c.radius
def Circle.right (c : Circle) : ℤ := c.x + c.radius
def Circle.top (c : Circle) : ℤ := c.y - c.radius
def Circle.bottom (c : Circle) : ℤ := c.y + c.radius

/-- A shape is either a rectangle or a circle; the C++ `isIntersecting`
template is instantiated at both. -/
inductive Shape where
  | rect (r : Rectangle)
  | circ (c : Circle)
deriving DecidableEq

def Shape.left : Shape → ℤ
  | .rect r => r.left
  | .circ c => c.left

def Shape.right : Shape → ℤ
  | .rect r => r.right
  | .circ c => c.right

def Shape.top : Shape → ℤ
  | .rect r => r.top
  | .circ c => c.top

def Shape.bottom : Shape → ℤ
  | .rect r => r.bottom
  | .circ c => c.bottom

/-- `isIntersecting` (main.cpp:241-246): inclusive AABB overlap test. -/
def isIntersecting (a b : Shape) : Bool :=
  decide (a.right ≥ b.left) && decide (a.left ≤ b.right) &&
  decide (a.bottom ≥ b.top) && decide (a.top ≤ b.bottom)

/-! ## Entities -/

/-- `Ball` (main.cpp:119-160).  Every ball is constructed with radius
`defRadius`, so the radius is a constant of the model. -/
structure Ball where
  x : ℤ
  y : ℤ
  vx : ℤ
  vy : ℤ
  destroyed : Bool
deriving DecidableEq

def Ball.defRadius : ℤ := 10
def Ball.defVelocity : ℤ := 8

def Ball.left (b : Ball) : ℤ := b.x - Ball.defRadius
def Ball.right (b : Ball) : ℤ := b.x + Ball.defRadius
def Ball.top (b : Ball) : ℤ := b.y - Ball.defRadius
def Ball.bottom (b : Ball) : ℤ := b.y + Ball.defRadius

def Ball.toShape (b : Ball) : Shape := .circ ⟨b.x, b.y, Ball.defRadius⟩

/-- `Paddle` (main.cpp:164-200).  Size is fixed by the constructor. -/
structure Paddle where
  x : ℤ
  y : ℤ
  vx : ℤ
  vy : ℤ
  destroyed : Bool
deriving DecidableEq

def Paddle.defWidth : ℤ := 60
def Paddle.defHeight : ℤ := 20
def Paddle.defVelocity : ℤ := 8

def Paddle.left (p : Paddle) : ℤ := p.x - Paddle.defWidth / 2
def Paddle.right (p : Paddle) : ℤ := p.x + Paddle.defWidth / 2
def Paddle.top (p : Paddle) : ℤ := p.y - Paddle.defHeight / 2
def Paddle.bottom (p : Paddle) : ℤ := p.y + Paddle.defHeight / 2

def Paddle.toShape (p : Paddle) : Shape := .rect ⟨p.x, p.y, Paddle.defWidth, Paddle.defHeight⟩

/-- `Brick` (main.cpp:204-235).  Size is fixed by the constructor; the fill
color is a pure function of `requiredHits` and carries no extra state, so it
is not modelled. -/
structure Brick where
  x : ℤ
  y : ℤ
  requiredHits : ℤ
  destroyed : Bool
deriving DecidableEq

def Brick.defWidth : ℤ := 60
def Brick.defHeight : ℤ := 20

def Brick.left (br : Brick) : ℤ := br.x - Brick.defWidth / 2
def Brick.right (br : Brick) : ℤ := br.x + Brick.defWidth / 2
def Brick.top (br : Brick) : ℤ := br.y - Brick.defHeight / 2
def Brick.bottom (br : Brick) : ℤ := br.y + Brick.defHeight / 2

def Brick.toShape (br : Brick) : Shape := .rect ⟨br.x, br.y, Brick.defWidth, Brick.defHeight⟩

/-! ## Ball bound collisions and movement -/

/-- `Ball::solveBoundCollisions` (main.cpp:144-159). -/
def Ball.solveBoundCollisions (b : Ball) : Ball :=
  let b1 :=
    if b.left < 0 then { b with vx := Ball.defVelocity }
    else if b.right > wndWidth then { b with vx := -Ball.defVelocity }
    else b
  if b1.top < 0 then { b1 with vy := Ball.defVelocity }
  else if b1.bottom > wndHeight then { b1 with destroyed := true }
  else b1

/-- `Ball::update` (main.cpp:135-139): move by velocity, then solve bound
collisions. -/
def Ball.update (b : Ball) : Ball :=
  Ball.solveBoundCollisions { b with x := b.x + b.vx, y := b.y + b.vy }

/-! ## Paddle input and movement -/

/-- The per-frame key state the game polls (`sf::Keyboard::isKeyPressed`). -/
structure Input where
  pDown : Bool
  rDown : Bool
  leftDown : Bool
  rightDown : Bool
deriving DecidableEq

/-- `Paddle::processPlayerInput` (main.cpp:190-199): gate the velocity on the
pre-move position. -/
def Paddle.processPlayerInput (inp : Input) (p : Paddle) : Paddle :=
  if inp.leftDown && decide (p.left > 0) then { p with vx := -Paddle.defVelocity }
  else if inp.rightDown && decide (p.right < wndWidth) then { p with vx := Paddle.defVelocity }
  else { p with vx := 0 }

/-- `Paddle::update` (main.cpp:181-185): process input, then move. -/
def Paddle.update (inp : Input) (p : Paddle) : Paddle :=
  let p1 := Paddle.processPlayerInput inp p
  { p1 with x := p1.x + p1.vx, y := p1.y + p1.vy }

/-! ## Collision resolution -/

/-- `solvePaddleBallCollision` (main.cpp:248-255). -/
def solvePaddleBallCollision (pd : Paddle) (b : Ball) : Ball :=
  if !(isIntersecting pd.toShape b.toShape) then b
  else
    { b with
      vy := -Ball.defVelocity,
      vx := if b.x < pd.x then -Ball.defVelocity else Ball.defVelocity }

/-- `overlapLeft` local of `solveBrickBallCollision` (main.cpp:266). -/
def overlapLeft (br : Brick) (b : Ball) : ℤ := b.right - br.left

/-- `overlapRight` local of `solveBrickBallCollision` (main.cpp:267). -/
def overlapRight (br : Brick) (b : Ball) : ℤ := br.right - b.left

/-- `overlapTop` local of `solveBrickBallCollision` (main.cpp:268). -/
def overlapTop (br : Brick) (b : Ball) : ℤ := b.bottom - br.top

/-- `overlapBottom` local of `solveBrickBallCollision` (main.cpp:269). -/
def overlapBottom (br : Brick) (b : Ball) : ℤ := br.bottom - b.top

/-- `ballFromLeft` local (main.cpp:271). -/
def ballFromLeft (br : Brick) (b : Ball) : Bool :=
  decide (|overlapLeft br b| < |overlapRight br b|)

/-- `ballFromTop` local (main.cpp:272). -/
def ballFromTop (br : Brick) (b : Ball) : Bool :=
  decide (|overlapTop br b| < |overlapBottom br b|)

/-- `minOverlapX` local (main.cpp:274). -/
def minOverlapX (br : Brick) (b : Ball) : ℤ :=
  if ballFromLeft br b then overlapLeft br b else overlapRight br b

/-- `minOverlapY` local (main.cpp:275). -/
def minOverlapY (br : Brick) (b : Ball) : ℤ :=
  if ballFromTop br b then overlapTop br b else overlapBottom br b

/-- `solveBrickBallCollision` (main.cpp:257-282). -/
def solveBrickBallCollision (br : Brick) (b : Ball) : Brick × Ball :=
  if !(isIntersecting br.toShape b.toShape) then (br, b)
  else
    let br1 : Brick :=
      { br with
        requiredHits := br.requiredHits - 1,
        destroyed := if br.requiredHits - 1 ≤ 0 then true else br.destroyed }
    let b1 : Ball :=
      if |minOverlapX br b| < |minOverlapY br b| then
        { b with vx := if ballFromLeft br b then -Ball.defVelocity else Ball.defVelocity }
      else
        { b with vy := if ballFromTop br b then -Ball.defVelocity else Ball.defVelocity }
    (br1, b1)

/-! ## Entity registry (`Manager`, main.cpp:21-90)

Entities live in a master ownership list in creation order; a per-variant
group index holds pointers into it.  Pointers are modelled by numeric ids:
the master list stores `(id, entity)` pairs and the groups store ids. -/

inductive Variant where
  | ball
  | paddle
  | brick
deriving DecidableEq

inductive Entity where
  | ball (b : Ball)
  | paddle (p : Paddle)
  | brick (br : Brick)
deriving DecidableEq

def Entity.variant : Entity → Variant
  | .ball _ => .ball
  | .paddle _ => .paddle
  | .brick _ => .brick

def Entity.destroyed : Entity → Bool
  | .ball b => b.destroyed
  | .paddle p => p.destroyed
  | .brick br => br.destroyed

structure Manager where
  next : Nat
  entities : List (Nat × Entity)
  ballG : List Nat
  paddleG : List Nat
  brickG : List Nat
deriving DecidableEq

def Manager.empty : Manager := ⟨0, [], [], [], []⟩

/-- `Manager::getAll<T>` (main.cpp:70-74): the group index of a variant. -/
def Manager.groups (m : Manager) : Variant → List Nat
  | .ball => m.ballG
  | .paddle => m.paddleG
  | .brick => m.brickG

/-- `Manager::create<T>` (main.cpp:28-40): allocate a fresh entity, append it
to the master list and to its variant group. -/
def Manager.create (m : Manager) (e : Entity) : Manager :=
  { m with
    next := m.next + 1,
    entities := m.entities ++ [(m.next, e)],
    ballG := if e.variant = .ball then m.ballG ++ [m.next] else m.ballG,
    paddleG := if e.variant = .paddle then m.paddleG ++ [m.next] else m.paddleG,
    brickG := if e.variant = .brick then m.brickG ++ [m.next] else m.brickG }

/-- `Manager::clear` (main.cpp:64-68). -/
def Manager.clear (_m : Manager) : Manager := Manager.empty

/-- Dereference an id (a stored pointer) in the master list. -/
def Manager.getEnt (m : Manager) (id : Nat) : Option Entity :=
  (m.entities.find? (fun pr => pr.1 == id)).map Prod.snd

/-- Overwrite the entity an id points to (a write through a stored pointer). -/
def Manager.setEnt (m : Manager) (id : Nat) (e : Entity) : Manager :=
  { m with entities := m.entities.map (fun pr => if pr.1 == id then (id, e) else pr) }

/-- The `destroyed` flag seen through a stored pointer (used by the group
erase passes of `Manager::refresh`). -/
def Manager.destroyedAt (m : Manager) (id : Nat) : Bool :=
  match m.entities.find? (fun pr => pr.1 == id) with
  | some pr => pr.2.destroyed
  | none => true

/-- `Manager::refresh` (main.cpp:42-62): erase destroyed entities from every
group index, then from the master list.  The group passes read the flags of
the still-unmodified master entities. -/
def Manager.refresh (m : Manager) : Manager :=
  { m with
    ballG := m.ballG.filter (fun id => !m.destroyedAt id),
    paddleG := m.paddleG.filter (fun id => !m.destroyedAt id),
    brickG := m.brickG.filter (fun id => !m.destroyedAt id),
    entities := m.entities.filter (fun pr => !pr.2.destroyed) }

/-- `Manager::update` (main.cpp:82-85): update every entity in master order.
Each entity's update reads only its own state and the key state, so the
sequential loop is a map. -/
def Entity.update (inp : Input) : Entity → Entity
  | .ball b => .ball b.update
  | .paddle p => .paddle (p.update inp)
  | .brick br => .brick br

def Manager.update (m : Manager) (inp : Input) : Manager :=
  { m with entities := m.entities.map (fun pr => (pr.1, pr.2.update inp)) }

/-! ## Collision pass (main.cpp:422-432) -/

/-- One `solveBrickBallCollision(mBrick, mBall)` call through pointers. -/
def applyBrickBall (m : Manager) (brickId ballId : Nat) : Manager :=
  match m.getEnt brickId, m.getEnt ballId with
  | some (.brick br), some (.ball b) =>
      let r := solveBrickBallCollision br b
      (m.setEnt brickId (.brick r.1)).setEnt ballId (.ball r.2)
  | _, _ => m

/-- One `solvePaddleBallCollision(mPaddle, mBall)` call; the paddle argument
is `const` in the source, only the ball is written back. -/
def applyPaddleBall (m : Manager) (paddleId ballId : Nat) : Manager :=
  match m.getEnt paddleId, m.getEnt ballId with
  | some (.paddle pd), some (.ball b) =>
      m.setEnt ballId (.ball (solvePaddleBallCollision pd b))
  | _, _ => m

/-- The nested `forEach` collision pass: for every ball, first every brick,
then every paddle.  No entity is created or removed during the pass, so the
group vectors iterated are those of the manager at the start of the pass. -/
def collisionPass (m : Manager) : Manager :=
  (m.groups .ball).foldl
    (fun acc ballId =>
      let acc2 := (m.groups .brick).foldl (fun a brickId => applyBrickBall a brickId ballId) acc
      (m.groups .paddle).foldl (fun a paddleId => applyPaddleBall a paddleId ballId) acc2)
    m

/-! ## Game state machine (`Game`, main.cpp:284-447) -/

inductive GState where
  | paused
  | gameOver
  | inProgress
  | victory
deriving DecidableEq

structure Game where
  manager : Manager
  state : GState
  pausePressedLastFrame : Bool
  remainingLives : ℤ
deriving DecidableEq

def brkCountX : Nat := 11
def brkCountY : Nat := 4
def brkStartColumn : ℤ := 1
def brkStartRow : ℤ := 2
def brkSpacing : ℤ := 3
def brkOffsetX : ℤ := 22

/-- The ball created by `manager.create<Ball>(wndWidth / 2.f, wndHeight / 2.f)`
(main.cpp:360 and main.cpp:407): constructor defaults give velocity
`(-defVelocity, -defVelocity)`. -/
def Game.newBall : Ball :=
  { x := wndWidth / 2, y := wndHeight / 2,
    vx := -Ball.defVelocity, vy := -Ball.defVelocity, destroyed := false }

/-- The paddle created by `manager.create<Paddle>(wndWidth / 2.f, wndHeight - 50.0f)`
(main.cpp:361): velocity defaults to zero. -/
def Game.newPaddle : Paddle :=
  { x := wndWidth / 2, y := wndHeight - 50, vx := 0, vy := 0, destroyed := false }

/-- The brick created for loop indices `(iX, iY)` of `Game::restart`
(main.cpp:348-358). -/
def gridBrick (iX iY : Nat) : Brick :=
  { x := brkOffsetX + ((iX : ℤ) + brkStartColumn) * (Brick.defWidth + brkSpacing),
    y := ((iY : ℤ) + brkStartRow) * (Brick.defHeight + brkSpacing),
    requiredHits := 1 + ((iX : ℤ) * (iY : ℤ)) % 3,
    destroyed := false }

/-- `Game::restart` (main.cpp:340-362). -/
def Game.restart (g : Game) : Game :=
  { g with
    remainingLives := 3,
    state := .paused,
    manager :=
      let m0 := g.manager.clear
      let m1 := (List.range brkCountX).foldl
        (fun m iX =>
          (List.range brkCountY).foldl
            (fun m iY => m.create (.brick (gridBrick iX iY))) m)
        m0
      (m1.create (.ball Game.newBall)).create (.paddle Game.newPaddle) }

/-- The state change of a pause-key edge (main.cpp:376-379): `Paused` and
`InProgress` swap, the other states are untouched. -/
def pauseToggle : GState → GState
  | .paused => .inProgress
  | .inProgress => .paused
  | s => s

/-- The pause-key block of `Game::run` (main.cpp:372-384): the toggle fires
only when the key is down and was not down on the previous frame; the
last-frame flag records the key state. -/
def pausePhase (inp : Input) (g : Game) : Game :=
  if inp.pDown then
    if !g.pausePressedLastFrame then
      { g with state := pauseToggle g.state, pausePressedLastFrame := true }
    else { g with pausePressedLastFrame := true }
  else { g with pausePressedLastFrame := false }

/-- The restart-key line of `Game::run` (main.cpp:386). -/
def restartPhase (inp : Input) (g : Game) : Game :=
  if inp.rDown then g.restart else g

/-- The simulation branch of `Game::run` (main.cpp:390-442): when the state is
`InProgress`, respawn a missing ball and pay a life, run the victory and
game-over checks, update entities, resolve collisions, and sweep.  Rendering
has no effect on the model state. -/
def simPhase (inp : Input) (g : Game) : Game :=
  if g.state = .inProgress then
    let g1 :=
      if (g.manager.groups .ball).isEmpty then
        { g with
          manager := g.manager.create (.ball Game.newBall),
          remainingLives := g.remainingLives - 1 }
      else g
    let g2 := if (g1.manager.groups .brick).isEmpty then { g1 with state := .victory } else g1
    let g3 := if g2.remainingLives ≤ 0 then { g2 with state := .gameOver } else g2
    { g3 with manager := (collisionPass (g3.manager.update inp)).refresh }
  else g

/-- One iteration of the `Game::run` loop (main.cpp:364-446), escape aside. -/
def Game.step (inp : Input) (g : Game) : Game :=
  simPhase inp (restartPhase inp (pausePhase inp g))

/-- The `Game` constructed in `main` (main.cpp:449-455) before `restart`. -/
def initialGame0 : Game :=
  { manager := Manager.empty, state := .gameOver, pausePressedLastFrame := false,
    remainingLives := 0 }

/-- The game state at the first iteration of `Game::run`: `main` constructs a
game and calls `restart` before `run`. -/
def initialGame : Game := initialGame0.restart

/-- The reachable game states: the initial state and everything a frame step
under some key input produces from a reachable state. -/
inductive Reachable : Game → Prop
  | init : Reachable initialGame
  | step (inp : Input) (g : Game) : Reachable g → Reachable (g.step inp)

/-! ## Theorems -/

/-- C8: For every pair of shapes A and B (rectangle or circle, in either
role), `intersects(A, B)` equals `intersects(B, A)`: the axis-aligned
bounding-box overlap test with inclusive bounds is symmetric in its
arguments. -/
theorem intersects_symm (A B : Shape) : isIntersecting A B = isIntersecting B A := by
  simp only [isIntersecting, ge_iff_le]
  by_cases h1 : B.left ≤ A.right <;> by_cases h2 : A.left ≤ B.right <;>
    by_cases h3 : B.top ≤ A.bottom <;> by_cases h4 : A.top ≤ B.bottom <;>
    simp [h1, h2, h3, h4]

/-- C2: For every paddle and ball that intersect, paddle-ball resolution sets
the ball's vertical velocity to upward (`-defVelocity`) and chooses the
horizontal velocity sign by a strict `<` comparison of ball center x against
paddle center x (strictly left gives leftward, otherwise rightward); if they
do not intersect the ball is unchanged. -/
theorem paddle_ball_resolution (pd : Paddle) (b : Ball) :
    (isIntersecting pd.toShape b.toShape = true →
      (solvePaddleBallCollision pd b).vy = -Ball.defVelocity
      ∧ (solvePaddleBallCollision pd b).vx =
          (if b.x < pd.x then -Ball.defVelocity else Ball.defVelocity)
      ∧ (solvePaddleBallCollision pd b).x = b.x
      ∧ (solvePaddleBallCollision pd b).y = b.y
      ∧ (solvePaddleBallCollision pd b).destroyed = b.destroyed)
    ∧ (isIntersecting pd.toShape b.toShape = false →
        solvePaddleBallCollision pd b = b) := by
  unfold solvePaddleBallCollision
  cases h : isIntersecting pd.toShape b.toShape <;> simp [h]

/-- Paddle and ball of the C2 tie-break scenario: the ball moves with velocity
(-8, -8) and its center x equals the paddle's center x. -/
def padW : Paddle := { x := 400, y := 550, vx := 0, vy := 0, destroyed := false }

def ballW : Ball := { x := 400, y := 545, vx := -8, vy := -8, destroyed := false }

/-- C2 witness: the tie-break scenario resolves to `velocity.x = +8`. -/
theorem paddle_ball_resolution_w :
    isIntersecting padW.toShape ballW.toShape = true
    ∧ (solvePaddleBallCollision padW ballW).vx = 8
    ∧ (solvePaddleBallCollision padW ballW).vy = -8 := by
  refine ⟨by decide, ?_, ?_⟩
  · have h := (paddle_ball_resolution padW ballW).1 (by decide)
    rw [h.2.1]
    decide
  · have h := (paddle_ball_resolution padW ballW).1 (by decide)
    rw [h.1]
    decide

/-- C4: in a ball's bound-collision step, a left edge below 0 forces the
horizontal velocity rightward, else a right edge past 800 forces it leftward;
a top edge below 0 forces the vertical velocity downward; and any ball whose
bottom edge exceeds 600 is marked destroyed (its top edge cannot also be
above 0, since the radius is 10 on a 600-high screen), with no other bound
reflection overriding the destruction. -/
theorem ball_bound_collisions (b : Ball) :
    (b.left < 0 → (Ball.solveBoundCollisions b).vx = Ball.defVelocity)
    ∧ (¬b.left < 0 → b.right > wndWidth →
        (Ball.solveBoundCollisions b).vx = -Ball.defVelocity)
    ∧ (¬b.left < 0 → ¬b.right > wndWidth →
        (Ball.solveBoundCollisions b).vx = b.vx)
    ∧ (b.top < 0 →
        (Ball.solveBoundCollisions b).vy = Ball.defVelocity
        ∧ (Ball.solveBoundCollisions b).destroyed = b.destroyed)
    ∧ (b.bottom > wndHeight →
        (Ball.solveBoundCollisions b).destroyed = true
        ∧ (Ball.solveBoundCollisions b).vy = b.vy)
    ∧ (¬b.top < 0 → ¬b.bottom > wndHeight →
        (Ball.solveBoundCollisions b).vy = b.vy
        ∧ (Ball.solveBoundCollisions b).destroyed = b.destroyed)
    ∧ (Ball.solveBoundCollisions b).x = b.x
    ∧ (Ball.solveBoundCollisions b).y = b.y := by
  obtain ⟨x, y, vx, vy, d⟩ := b
  simp only [Ball.solveBoundCollisions, Ball.left, Ball.right, Ball.top, Ball.bottom,
    Ball.defRadius, Ball.defVelocity, wndWidth, wndHeight]
  split_ifs <;> simp_all <;> omega

/-- Ball of the C4 witness: about to leave through the bottom edge. -/
def ballB : Ball := { x := 400, y := 595, vx := 8, vy := 8, destroyed := false }

/-- C4 witness: a ball whose bottom edge exceeds 600 is destroyed by the
bound-collision step, and the in-bounds axes keep their velocities. -/
theorem ball_bound_collisions_w :
    ballB.bottom > wndHeight
    ∧ (Ball.solveBoundCollisions ballB).destroyed = true
    ∧ (Ball.solveBoundCollisions ballB).vx = ballB.vx
    ∧ (Ball.solveBoundCollisions ballB).vy = ballB.vy := by
  have h := ball_bound_collisions ballB
  exact ⟨by decide, (h.2.2.2.2.1 (by decide)).1,
    h.2.2.1 (by decide) (by decide), (h.2.2.2.2.1 (by decide)).2⟩

/-- C1: for every brick and ball that intersect, brick-ball resolution
decrements the brick's `requiredHits` by exactly 1 and marks it destroyed
exactly when the counter is ≤ 0 afterwards (a brick already flagged stays
flagged); it computes the four overlap magnitudes, picks the
smaller-magnitude horizontal and vertical overlaps, and reflects exactly one
velocity axis of the ball — the axis whose chosen magnitude is smaller — to
the fixed magnitude pointing away from the approach side, leaving the other
axis's velocity unchanged.  Without intersection nothing changes. -/
theorem brick_ball_resolution (br : Brick) (b : Ball) :
    (isIntersecting br.toShape b.toShape = true →
      (solveBrickBallCollision br b).1.requiredHits = br.requiredHits - 1
      ∧ ((solveBrickBallCollision br b).1.destroyed = true ↔
          ((solveBrickBallCollision br b).1.requiredHits ≤ 0 ∨ br.destroyed = true))
      ∧ (solveBrickBallCollision br b).1.x = br.x
      ∧ (solveBrickBallCollision br b).1.y = br.y
      ∧ (if |minOverlapX br b| < |minOverlapY br b| then
          (solveBrickBallCollision br b).2.vx =
            (if ballFromLeft br b then -Ball.defVelocity else Ball.defVelocity)
          ∧ (solveBrickBallCollision br b).2.vy = b.vy
        else
          (solveBrickBallCollision br b).2.vy =
            (if ballFromTop br b then -Ball.defVelocity else Ball.defVelocity)
          ∧ (solveBrickBallCollision br b).2.vx = b.vx)
      ∧ (solveBrickBallCollision br b).2.x = b.x
      ∧ (solveBrickBallCollision br b).2.y = b.y
      ∧ (solveBrickBallCollision br b).2.destroyed = b.destroyed)
    ∧ (isIntersecting br.toShape b.toShape = false →
        solveBrickBallCollision br b = (br, b)) := by
  refine ⟨fun h => ?_, fun h => ?_⟩
  · by_cases hm : |minOverlapX br b| < |minOverlapY br b| <;>
      by_cases hle : br.requiredHits - 1 ≤ 0 <;>
        simp [solveBrickBallCollision, h, hm, hle]
  · simp [solveBrickBallCollision, h]

/-- Brick of the C1 witness: a one-hit brick of the seeded grid. -/
def brickW : Brick := { x := 85, y := 46, requiredHits := 1, destroyed := false }

/-- Ball of the C1 witness: overlapping the brick from below. -/
def ballBr : Ball := { x := 85, y := 62, vx := -8, vy := -8, destroyed := false }

/-- C1 witness: the hit decrements `requiredHits` from 1 to 0, destroys the
brick, reflects only the vertical velocity (the smaller chosen overlap is
vertical and the ball came from below), and keeps the horizontal velocity. -/
theorem brick_ball_resolution_w :
    isIntersecting brickW.toShape ballBr.toShape = true
    ∧ (solveBrickBallCollision brickW ballBr).1.requiredHits = 0
    ∧ (solveBrickBallCollision brickW ballBr).1.destroyed = true
    ∧ (solveBrickBallCollision brickW ballBr).2.vy = 8
    ∧ (solveBrickBallCollision brickW ballBr).2.vx = -8 := by
  have h := (brick_ball_resolution brickW ballBr).1 (by decide)
  refine ⟨by decide, ?_, ?_, ?_, ?_⟩
  · rw [h.1]
    decide
  · exact h.2.1.mpr (Or.inl (by rw [h.1]; decide))
  · have hv := h.2.2.2.2.1
    rw [if_neg (by decide)] at hv
    rw [hv.1, if_neg (by decide)]
    decide
  · have hv := h.2.2.2.2.1
    rw [if_neg (by decide)] at hv
    exact hv.2

/-! ## Registry lemmas -/

/-- Representation invariant of the registry: ids in the master list are
unique, and each group index lists exactly the ids of its variant's entities
in master (creation) order.  `create`, `clear` and `refresh` maintain it. -/
def Manager.WF (m : Manager) : Prop :=
  (m.entities.map Prod.fst).Nodup ∧
  ∀ v, m.groups v = (m.entities.filter (fun pr => pr.2.variant == v)).map Prod.fst

theorem find?_eq_of_mem_nodup {l : List (Nat × Entity)} {id : Nat} {e : Entity}
    (hnd : (l.map Prod.fst).Nodup) (hmem : (id, e) ∈ l) :
    l.find? (fun pr => pr.1 == id) = some (id, e) := by
  induction l with
  | nil => cases hmem
  | cons a t ih =>
    simp only [List.map_cons, List.nodup_cons] at hnd
    rcases List.mem_cons.mp hmem with h | h
    · rw [← h]
      exact List.find?_cons_of_pos _ (by simp)
    · have hne : (a.1 == id) = false := by
        simp only [beq_eq_false_iff_ne, ne_eq]
        intro hq
        exact hnd.1 (hq ▸ List.mem_map.mpr ⟨(id, e), h, rfl⟩)
      rw [List.find?_cons_of_neg _ (by simp [hne])]
      exact ih hnd.2 h

theorem destroyedAt_of_mem {m : Manager} {id : Nat} {e : Entity}
    (hnd : (m.entities.map Prod.fst).Nodup) (hmem : (id, e) ∈ m.entities) :
    m.destroyedAt id = e.destroyed := by
  unfold Manager.destroyedAt
  rw [find?_eq_of_mem_nodup hnd hmem]

/-- The group pass of `refresh`, which reads the `destroyed` flags through the
stored pointers, removes exactly the ids of destroyed entities of the group's
variant. -/
theorem refresh_group_eq {m : Manager} (h : m.WF) (v : Variant) :
    (m.groups v).filter (fun id => !m.destroyedAt id) =
      ((m.entities.filter (fun pr => !pr.2.destroyed)).filter
        (fun pr => pr.2.variant == v)).map Prod.fst := by
  rw [h.2 v, List.filter_map]
  have hcongr :
      (m.entities.filter (fun pr => pr.2.variant == v)).filter
          ((fun id => !m.destroyedAt id) ∘ Prod.fst) =
        (m.entities.filter (fun pr => pr.2.variant == v)).filter
          (fun pr => !pr.2.destroyed) := by
    apply List.filter_congr
    intro pr hpr
    obtain ⟨id, e⟩ := pr
    have hmem : (id, e) ∈ m.entities := (List.mem_filter.mp hpr).1
    simp only [Function.comp_apply]
    rw [destroyedAt_of_mem h.1 hmem]
  rw [hcongr, List.filter_filter, List.filter_filter]
  congr 1
  apply List.filter_congr
  intro pr _
  exact Bool.and_comm _ _

theorem WF_refresh {m : Manager} (h : m.WF) : m.refresh.WF := by
  constructor
  · exact h.1.sublist ((List.filter_sublist _).map _)
  · intro v
    have := refresh_group_eq h v
    cases v <;> exact this

/-- C7: `sweep` (`Manager::refresh`) removes from the master list and from
every per-variant group exactly the entities whose destroyed flag is set,
preserving the relative order of survivors; afterwards no destroyed entity
appears in the master iteration or in any group query, and an immediate
second sweep is a no-op. -/
theorem sweep_spec (m : Manager) (h : m.WF) :
    m.refresh.entities = m.entities.filter (fun pr => !pr.2.destroyed)
    ∧ (∀ v, m.refresh.groups v =
        (m.refresh.entities.filter (fun pr => pr.2.variant == v)).map Prod.fst)
    ∧ (∀ pr ∈ m.refresh.entities, pr.2.destroyed = false)
    ∧ (∀ v id, id ∈ m.refresh.groups v →
        ∃ e, (id, e) ∈ m.refresh.entities ∧ e.destroyed = false)
    ∧ m.refresh.refresh = m.refresh := by
  have hwf2 := WF_refresh h
  have hclean : ∀ pr ∈ m.refresh.entities, pr.2.destroyed = false := by
    intro pr hpr
    have := (List.mem_filter.mp hpr).2
    simpa using this
  refine ⟨rfl, hwf2.2, hclean, ?_, ?_⟩
  · intro v id hid
    rw [hwf2.2 v] at hid
    obtain ⟨pr, hpr, hfst⟩ := List.mem_map.mp hid
    have hmem : pr ∈ m.refresh.entities := (List.mem_filter.mp hpr).1
    obtain ⟨id', e⟩ := pr
    cases hfst
    exact ⟨e, hmem, hclean _ hmem⟩
  · have hgru : ∀ v, (m.refresh.groups v).filter
        (fun id => !m.refresh.destroyedAt id) = m.refresh.groups v := by
      intro v
      apply List.filter_eq_self.mpr
      intro id hid
      rw [hwf2.2 v] at hid
      obtain ⟨pr, hpr, hfst⟩ := List.mem_map.mp hid
      have hmem : pr ∈ m.refresh.entities := (List.mem_filter.mp hpr).1
      obtain ⟨id', e⟩ := pr
      cases hfst
      rw [destroyedAt_of_mem hwf2.1 hmem, hclean _ hmem]
      rfl
    have hent : m.refresh.entities.filter (fun pr => !pr.2.destroyed) =
        m.refresh.entities :=
      List.filter_eq_self.mpr (fun pr hpr => by rw [hclean pr hpr]; rfl)
    show Manager.mk _ _ _ _ _ = Manager.mk _ _ _ _ _
    rw [Manager.mk.injEq]
    exact ⟨rfl, hent, hgru .ball, hgru .paddle, hgru .brick⟩

/-- C7 witness: sweeping a mixed registry with one destroyed brick removes
exactly that brick everywhere, survivors keep their order, and a second
sweep changes nothing. -/
def mixedM : Manager :=
  { next := 4,
    entities := [(0, .brick { x := 85, y := 46, requiredHits := 1, destroyed := false }),
                 (1, .brick { x := 148, y := 46, requiredHits := 0, destroyed := true }),
                 (2, .ball Game.newBall),
                 (3, .paddle Game.newPaddle)],
    ballG := [2], paddleG := [3], brickG := [0, 1] }

theorem sweep_spec_w :
    mixedM.WF
    ∧ mixedM.refresh.brickG = [0]
    ∧ mixedM.refresh.entities.length = 3
    ∧ mixedM.refresh.refresh = mixedM.refresh := by
  have hwf : mixedM.WF := by
    constructor
    · decide
    · intro v
      cases v <;> decide
  exact ⟨hwf, by decide, by decide, (sweep_spec mixedM hwf).2.2.2.2⟩

/-! ## Pointer write/read lemmas -/

theorem find?_setList_self {l : List (Nat × Entity)} {id : Nat} {x : Entity} (e : Entity)
    (h : (l.find? (fun pr => pr.1 == id)).map Prod.snd = some x) :
    ((l.map (fun pr => if pr.1 == id then (id, e) else pr)).find?
      (fun pr => pr.1 == id)).map Prod.snd = some e := by
  induction l with
  | nil => simp at h
  | cons a t ih =>
    by_cases ha : (a.1 == id) = true
    · simp only [List.map_cons, if_pos ha]
      rw [List.find?_cons_of_pos _ (by simp)]
      rfl
    · simp only [List.map_cons, if_neg ha]
      rw [List.find?_cons_of_neg _ (by simp_all)]
      rw [List.find?_cons_of_neg _ (by simp_all)] at h
      exact ih h

theorem find?_setList_ne {l : List (Nat × Entity)} {id id' : Nat} (e : Entity)
    (hne : id' ≠ id) :
    (l.map (fun pr => if pr.1 == id then (id, e) else pr)).find?
      (fun pr => pr.1 == id') = l.find? (fun pr => pr.1 == id') := by
  induction l with
  | nil => rfl
  | cons a t ih =>
    rw [List.map_cons]
    by_cases ha : (a.1 == id) = true
    · have ha' : a.1 = id := by simpa using ha
      rw [if_pos ha]
      rw [List.find?_cons_of_neg _ (by simp; exact Ne.symm hne),
        List.find?_cons_of_neg _ (by simp [ha']; exact Ne.symm hne)]
      exact ih
    · rw [if_neg ha]
      by_cases hq : (a.1 == id') = true
      · rw [List.find?_cons_of_pos _ (by exact hq), List.find?_cons_of_pos _ (by exact hq)]
      · rw [List.find?_cons_of_neg _ (by exact hq), List.find?_cons_of_neg _ (by exact hq)]
        exact ih

theorem getEnt_setEnt_self {m : Manager} {id : Nat} {x : Entity} (e : Entity)
    (h : m.getEnt id = some x) : (m.setEnt id e).getEnt id = some e :=
  find?_setList_self e h

theorem getEnt_setEnt_ne {m : Manager} {id id' : Nat} (e : Entity) (hne : id' ≠ id) :
    (m.setEnt id e).getEnt id' = m.getEnt id' := by
  unfold Manager.setEnt Manager.getEnt
  rw [find?_setList_ne e hne]

theorem getEnt_update {m : Manager} {inp : Input} {id : Nat} :
    (m.update inp).getEnt id = (m.getEnt id).map (Entity.update inp) := by
  unfold Manager.update Manager.getEnt
  show ((List.find? _ (m.entities.map _)).map _) = _
  induction m.entities with
  | nil => rfl
  | cons a t ih =>
    rw [List.map_cons]
    by_cases ha : (a.1 == id) = true
    · rw [List.find?_cons_of_pos _ (by simpa using ha), List.find?_cons_of_pos _ (by exact ha)]
      rfl
    · rw [List.find?_cons_of_neg _ (by simpa using ha), List.find?_cons_of_neg _ (by exact ha)]
      exact ih

/-- Fresh-allocation invariant: every stored id is below the allocation
counter, so the id `create` hands out is new. -/
def Manager.FreshIds (m : Manager) : Prop := ∀ pr ∈ m.entities, pr.1 < m.next

instance (m : Manager) : Decidable m.FreshIds := by
  unfold Manager.FreshIds
  infer_instance

theorem getEnt_create_self {m : Manager} (h : m.FreshIds) (e : Entity) :
    (m.create e).getEnt m.next = some e := by
  unfold Manager.create Manager.getEnt
  simp only [List.find?_append]
  have hnone : m.entities.find? (fun pr => pr.1 == m.next) = none :=
    List.find?_eq_none.mpr (fun pr hpr => by
      simpa using Nat.ne_of_lt (h pr hpr))
  rw [hnone]
  simp only [Option.none_or]
  rw [List.find?_cons_of_pos _ (by simp)]
  rfl

theorem destroyedAt_getEnt {m : Manager} {id : Nat} {e : Entity}
    (h : m.getEnt id = some e) : m.destroyedAt id = e.destroyed := by
  unfold Manager.getEnt at h
  unfold Manager.destroyedAt
  cases hf : m.entities.find? (fun pr => pr.1 == id) with
  | none => rw [hf] at h; simp at h
  | some pr =>
    rw [hf] at h
    simp at h
    simp [h]

/-! ## Collision-pass preservation lemmas -/

theorem solveBrickBall_ball_destroyed (br : Brick) (b : Ball) :
    (solveBrickBallCollision br b).2.destroyed = b.destroyed := by
  unfold solveBrickBallCollision
  split_ifs <;> rfl

theorem solvePaddleBall_destroyed (pd : Paddle) (b : Ball) :
    (solvePaddleBallCollision pd b).destroyed = b.destroyed := by
  unfold solvePaddleBallCollision
  split_ifs <;> rfl

theorem applyBrickBall_fields (m : Manager) (i j : Nat) :
    (applyBrickBall m i j).next = m.next
    ∧ (applyBrickBall m i j).ballG = m.ballG
    ∧ (applyBrickBall m i j).paddleG = m.paddleG
    ∧ (applyBrickBall m i j).brickG = m.brickG := by
  unfold applyBrickBall
  split <;> exact ⟨rfl, rfl, rfl, rfl⟩

theorem applyPaddleBall_fields (m : Manager) (i j : Nat) :
    (applyPaddleBall m i j).next = m.next
    ∧ (applyPaddleBall m i j).ballG = m.ballG
    ∧ (applyPaddleBall m i j).paddleG = m.paddleG
    ∧ (applyPaddleBall m i j).brickG = m.brickG := by
  unfold applyPaddleBall
  split <;> exact ⟨rfl, rfl, rfl, rfl⟩

theorem foldl_groups {α : Type} (f : Manager → α → Manager)
    (hf : ∀ m a, (f m a).next = m.next ∧ (f m a).ballG = m.ballG
      ∧ (f m a).paddleG = m.paddleG ∧ (f m a).brickG = m.brickG)
    (l : List α) (m : Manager) :
    (l.foldl f m).next = m.next ∧ (l.foldl f m).ballG = m.ballG
    ∧ (l.foldl f m).paddleG = m.paddleG ∧ (l.foldl f m).brickG = m.brickG := by
  induction l generalizing m with
  | nil => exact ⟨rfl, rfl, rfl, rfl⟩
  | cons a t ih =>
    obtain ⟨h1, h2, h3, h4⟩ := hf m a
    obtain ⟨g1, g2, g3, g4⟩ := ih (f m a)
    exact ⟨h1 ▸ g1, h2 ▸ g2, h3 ▸ g3, h4 ▸ g4⟩

theorem collisionPass_fields (m : Manager) :
    (collisionPass m).next = m.next ∧ (collisionPass m).ballG = m.ballG
    ∧ (collisionPass m).paddleG = m.paddleG ∧ (collisionPass m).brickG = m.brickG := by
  unfold collisionPass
  exact foldl_groups _ (fun m' a => by
    obtain ⟨h1, h2, h3, h4⟩ := foldl_groups _ (applyBrickBall_fields · · a) (m.groups .brick) m'
    obtain ⟨g1, g2, g3, g4⟩ := foldl_groups _ (applyPaddleBall_fields · · a) (m.groups .paddle) _
    exact ⟨h1 ▸ g1, h2 ▸ g2, h3 ▸ g3, h4 ▸ g4⟩) _ m

theorem ballAt_applyBrickBall {m : Manager} (bid : Nat) {nid : Nat} {b : Ball}
    (hb : m.getEnt nid = some (.ball b)) :
    ∃ b2 : Ball, (applyBrickBall m bid nid).getEnt nid = some (.ball b2)
      ∧ b2.destroyed = b.destroyed := by
  unfold applyBrickBall
  rw [hb]
  cases hget : m.getEnt bid with
  | none => exact ⟨b, hb, rfl⟩
  | some e =>
    cases e with
    | ball b' => exact ⟨b, hb, rfl⟩
    | paddle p => exact ⟨b, hb, rfl⟩
    | brick br =>
      have hne : bid ≠ nid := by
        intro hq
        rw [hq, hb] at hget
        cases hget
      have h1 : (m.setEnt bid (.brick (solveBrickBallCollision br b).1)).getEnt nid =
          some (.ball b) := by
        rw [getEnt_setEnt_ne _ (Ne.symm hne)]
        exact hb
      exact ⟨(solveBrickBallCollision br b).2,
        getEnt_setEnt_self _ h1, solveBrickBall_ball_destroyed br b⟩

theorem ballAt_applyPaddleBall {m : Manager} (pid : Nat) {nid : Nat} {b : Ball}
    (hb : m.getEnt nid = some (.ball b)) :
    ∃ b2 : Ball, (applyPaddleBall m pid nid).getEnt nid = some (.ball b2)
      ∧ b2.destroyed = b.destroyed := by
  unfold applyPaddleBall
  rw [hb]
  cases hget : m.getEnt pid with
  | none => exact ⟨b, hb, rfl⟩
  | some e =>
    cases e with
    | ball b' => exact ⟨b, hb, rfl⟩
    | brick br => exact ⟨b, hb, rfl⟩
    | paddle pd =>
      exact ⟨solvePaddleBallCollision pd b,
        getEnt_setEnt_self _ hb, solvePaddleBall_destroyed pd b⟩

theorem ballAt_brickFold (ids : List Nat) {m : Manager} {nid : Nat} {b : Ball}
    (hb : m.getEnt nid = some (.ball b)) :
    ∃ b2 : Ball, (ids.foldl (fun a bid => applyBrickBall a bid nid) m).getEnt nid =
      some (.ball b2) ∧ b2.destroyed = b.destroyed := by
  induction ids generalizing m b with
  | nil => exact ⟨b, hb, rfl⟩
  | cons i t ih =>
    obtain ⟨b1, h1, hd1⟩ := ballAt_applyBrickBall i hb
    obtain ⟨b2, h2, hd2⟩ := ih h1
    exact ⟨b2, h2, hd1 ▸ hd2⟩

theorem ballAt_paddleFold (ids : List Nat) {m : Manager} {nid : Nat} {b : Ball}
    (hb : m.getEnt nid = some (.ball b)) :
    ∃ b2 : Ball, (ids.foldl (fun a pid => applyPaddleBall a pid nid) m).getEnt nid =
      some (.ball b2) ∧ b2.destroyed = b.destroyed := by
  induction ids generalizing m b with
  | nil => exact ⟨b, hb, rfl⟩
  | cons i t ih =>
    obtain ⟨b1, h1, hd1⟩ := ballAt_applyPaddleBall i hb
    obtain ⟨b2, h2, hd2⟩ := ih h1
    exact ⟨b2, h2, hd1 ▸ hd2⟩

theorem ballAt_collisionPass {m : Manager} {nid : Nat} {b : Ball}
    (hball : m.ballG = [nid]) (hb : m.getEnt nid = some (.ball b)) :
    ∃ b2 : Ball, (collisionPass m).getEnt nid = some (.ball b2)
      ∧ b2.destroyed = b.destroyed := by
  unfold collisionPass
  show ∃ b2, ((m.ballG).foldl _ m).getEnt nid = some (.ball b2) ∧ _
  rw [hball]
  simp only [List.foldl_cons, List.foldl_nil]
  obtain ⟨b1, h1, hd1⟩ := ballAt_brickFold (m.groups .brick) hb
  obtain ⟨b2, h2, hd2⟩ := ballAt_paddleFold (m.groups .paddle) h1
  exact ⟨b2, h2, hd1 ▸ hd2⟩

/-! ## Game phase lemmas -/

theorem pausePhase_manager (inp : Input) (g : Game) :
    (pausePhase inp g).manager = g.manager := by
  unfold pausePhase
  split_ifs <;> rfl

theorem pausePhase_lives (inp : Input) (g : Game) :
    (pausePhase inp g).remainingLives = g.remainingLives := by
  unfold pausePhase
  split_ifs <;> rfl

theorem pausePhase_noKey {inp : Input} (g : Game) (hp : inp.pDown = false) :
    pausePhase inp g = { g with pausePressedLastFrame := false } := by
  simp [pausePhase, hp]

theorem restartPhase_id {inp : Input} (g : Game) (hr : inp.rDown = false) :
    restartPhase inp g = g := by
  simp [restartPhase, hr]

theorem simPhase_skip {inp : Input} {g : Game} (hs : g.state ≠ .inProgress) :
    simPhase inp g = g := by
  simp [simPhase, hs]

theorem create_ball_groups (m : Manager) (b : Ball) :
    (m.create (.ball b)).ballG = m.ballG ++ [m.next]
    ∧ (m.create (.ball b)).paddleG = m.paddleG
    ∧ (m.create (.ball b)).brickG = m.brickG := by
  simp [Manager.create, Entity.variant]

/-- The life accounting and state transition of a simulated `InProgress`
frame: a missing ball costs one life before the checks run; the victory
check fires on an empty brick group and the game-over check, which runs
last, overrides it whenever the post-decrement lives are ≤ 0. -/
theorem simPhase_inProgress (inp : Input) (g : Game) (hs : g.state = .inProgress) :
    (simPhase inp g).state =
      (if g.remainingLives - (if (g.manager.groups .ball).isEmpty then 1 else 0) ≤ 0
        then .gameOver
        else if (g.manager.groups .brick).isEmpty then .victory else .inProgress)
    ∧ (simPhase inp g).remainingLives =
        g.remainingLives - (if (g.manager.groups .ball).isEmpty then 1 else 0)
    ∧ (simPhase inp g).pausePressedLastFrame = g.pausePressedLastFrame := by
  by_cases hbe : (g.manager.groups .ball).isEmpty <;>
    by_cases hbr : (g.manager.groups .brick).isEmpty <;>
      by_cases hlv : g.remainingLives - (if (g.manager.groups .ball).isEmpty then 1 else 0) ≤ 0 <;>
        simp_all [simPhase, Manager.create, Manager.groups, Entity.variant] <;>
          split_ifs with h <;>
            first
              | exact ⟨rfl, rfl, rfl⟩
              | exact ⟨hs, rfl, rfl⟩

/-- C3: after restart, whatever the prior state, the registry holds exactly
44 bricks (an 11 x 4 grid), 1 ball and 1 paddle; `remainingLives` is 3; the
state is `Paused`; and the brick of grid column `iX`, row `iY` carries
`requiredHits = 1 + ((iX * iY) mod 3)`. -/
theorem restart_spec (g : Game) :
    ((g.restart).manager.groups .brick).length = 44
    ∧ ((g.restart).manager.groups .ball).length = 1
    ∧ ((g.restart).manager.groups .paddle).length = 1
    ∧ (g.restart).manager.entities.length = 46
    ∧ (g.restart).remainingLives = 3
    ∧ (g.restart).state = .paused
    ∧ (∀ iX < brkCountX, ∀ iY < brkCountY,
        (((g.restart).manager.groups .brick)[iX * brkCountY + iY]?).bind
          (g.restart).manager.getEnt = some (.brick (gridBrick iX iY))
        ∧ (gridBrick iX iY).requiredHits = 1 + ((iX : ℤ) * (iY : ℤ)) % 3) := by
  have hm : (g.restart).manager = (initialGame0.restart).manager := rfl
  rw [hm]
  exact ⟨by decide, by decide, by decide, by decide, rfl, rfl, by decide⟩

/-- C3 witness: the brick at grid column 2, row 3 (the spec's sample cell)
takes one hit, and the registry counts check out on a concrete restart. -/
theorem restart_spec_w :
    (((initialGame0.restart).manager.groups .brick)[2 * brkCountY + 3]?).bind
      (initialGame0.restart).manager.getEnt = some (.brick (gridBrick 2 3))
    ∧ (gridBrick 2 3).requiredHits = 1
    ∧ ((initialGame0.restart).manager.groups .brick).length = 44 := by
  have h := restart_spec initialGame0
  have h23 := h.2.2.2.2.2.2 2 (by decide) 3 (by decide)
  exact ⟨h23.1, by rw [h23.2]; decide, h.1⟩

/-- C10: if an `InProgress` frame satisfies both end conditions — empty brick
group and post-decrement lives ≤ 0 — it ends in `GameOver`, not `Victory`:
the game-over check runs after the victory check and overwrites it. -/
theorem gameover_overrides_victory (g : Game) (inp : Input)
    (hp : inp.pDown = false) (hr : inp.rDown = false)
    (hs : g.state = .inProgress)
    (_hb : (g.manager.groups .brick).isEmpty = true)
    (hl : g.remainingLives - (if (g.manager.groups .ball).isEmpty then 1 else 0) ≤ 0) :
    (g.step inp).state = .gameOver := by
  unfold Game.step
  rw [pausePhase_noKey g hp, restartPhase_id _ hr]
  have h2 := (simPhase_inProgress inp { g with pausePressedLastFrame := false } hs).1
  rw [h2]
  exact if_pos hl

/-- Concrete game of the C10 witness: in progress, no entities, no lives. -/
def g10 : Game :=
  { manager := Manager.empty, state := .inProgress, pausePressedLastFrame := false,
    remainingLives := 0 }

def inpNone : Input := ⟨false, false, false, false⟩

/-- C10 witness: a frame that spawns a ball (going to lives −1), sees the
empty brick group, and still ends `GameOver`. -/
theorem gameover_overrides_victory_w :
    (g10.manager.groups .brick).isEmpty = true
    ∧ g10.remainingLives - (if (g10.manager.groups .ball).isEmpty then 1 else 0) ≤ 0
    ∧ (g10.step inpNone).state = .gameOver :=
  ⟨by decide, by decide,
    gameover_overrides_victory g10 inpNone rfl rfl rfl (by decide) (by decide)⟩

/-! ## Pause-key lemmas -/

theorem pausePhase_flag_val (inp : Input) (g : Game) :
    (pausePhase inp g).pausePressedLastFrame = inp.pDown := by
  unfold pausePhase
  split_ifs with h1 h2 <;> simp_all

theorem restartPhase_flag_val (inp : Input) (g : Game) :
    (restartPhase inp g).pausePressedLastFrame = g.pausePressedLastFrame := by
  unfold restartPhase Game.restart
  split_ifs <;> rfl

theorem simPhase_flag_val (inp : Input) (g : Game) :
    (simPhase inp g).pausePressedLastFrame = g.pausePressedLastFrame := by
  unfold simPhase
  dsimp only
  split_ifs <;> rfl

theorem restartPhase_pDown (b b' r l rt : Bool) (g : Game) :
    restartPhase ⟨b, r, l, rt⟩ g = restartPhase ⟨b', r, l, rt⟩ g := rfl

theorem simPhase_pDown (b b' r l rt : Bool) (g : Game) :
    simPhase ⟨b, r, l, rt⟩ g = simPhase ⟨b', r, l, rt⟩ g := rfl

theorem restartPhase_flag (inp : Input) (g : Game) (t : Bool) :
    restartPhase inp { g with pausePressedLastFrame := t } =
      { restartPhase inp g with pausePressedLastFrame := t } := by
  unfold restartPhase Game.restart
  split_ifs <;> rfl

theorem simPhase_flag (inp : Input) (g : Game) (t : Bool) :
    simPhase inp { g with pausePressedLastFrame := t } =
      { simPhase inp g with pausePressedLastFrame := t } := by
  unfold simPhase
  dsimp only
  split_ifs <;> rfl

/-- C6 (amended): the pause key toggles only on a key-down edge.  On an edge
frame the input phase swaps `Paused` and `InProgress` — ending the frame
`Paused` when it started `InProgress`, and `InProgress` when it started
`Paused` provided no in-progress check (ball respawn exhausting the lives,
empty brick group) fires in the same frame; a frame whose key was already
down behaves exactly like a frame without the key, apart from keeping the
last-frame flag set — in particular it never pause-toggles; and the
last-frame flag always records the key, so releasing re-arms the edge. -/
theorem pause_toggle_spec (g : Game) (inp : Input) :
    (inp.pDown = true → g.pausePressedLastFrame = false → inp.rDown = false →
      g.state = .inProgress →
      (g.step inp).state = .paused ∧ (g.step inp).pausePressedLastFrame = true)
    ∧ (inp.pDown = true → g.pausePressedLastFrame = false → inp.rDown = false →
      g.state = .paused →
      (g.manager.groups .ball).isEmpty = false →
      (g.manager.groups .brick).isEmpty = false →
      0 < g.remainingLives →
      (g.step inp).state = .inProgress ∧ (g.step inp).pausePressedLastFrame = true)
    ∧ (inp.pDown = true → g.pausePressedLastFrame = true →
      g.step inp = { g.step { inp with pDown := false } with pausePressedLastFrame := true })
    ∧ (g.step inp).pausePressedLastFrame = inp.pDown := by
  refine ⟨?_, ?_, ?_, ?_⟩
  · intro hp hf hr hs
    have h1 : pausePhase inp g =
        { g with state := .paused, pausePressedLastFrame := true } := by
      simp [pausePhase, hp, hf, hs, pauseToggle]
    unfold Game.step
    rw [h1, restartPhase_id _ hr, simPhase_skip (by simp)]
    exact ⟨rfl, rfl⟩
  · intro hp hf hr hs hbe hbr hl
    have h1 : pausePhase inp g =
        { g with state := .inProgress, pausePressedLastFrame := true } := by
      simp [pausePhase, hp, hf, hs, pauseToggle]
    unfold Game.step
    rw [h1, restartPhase_id _ hr]
    obtain ⟨hst, hlv, hfl⟩ :=
      simPhase_inProgress inp { g with state := .inProgress, pausePressedLastFrame := true } rfl
    refine ⟨?_, by rw [hfl]⟩
    rw [hst]
    rw [if_neg (by simp [hbe, hl]), if_neg (by simp [hbr])]
  · intro hp hf
    obtain ⟨p, r, l, rt⟩ := inp
    cases hp
    unfold Game.step
    have h1 : pausePhase ⟨true, r, l, rt⟩ g = { g with pausePressedLastFrame := true } := by
      simp [pausePhase, hf]
    have h2 : pausePhase ⟨false, r, l, rt⟩ g = { g with pausePressedLastFrame := false } := by
      simp [pausePhase]
    dsimp only
    rw [h1, h2, restartPhase_pDown true false, simPhase_pDown true false]
    simp only [restartPhase_flag, simPhase_flag]
  · unfold Game.step
    rw [simPhase_flag_val, restartPhase_flag_val, pausePhase_flag_val]

def inpP : Input := ⟨true, false, false, false⟩

/-- Concrete game of the C6 counterexample: in progress, pause key held since
the last frame, one ball, no bricks left. -/
def gVic : Game :=
  { manager := { next := 1, entities := [(0, .ball Game.newBall)],
                 ballG := [0], paddleG := [], brickG := [] },
    state := .inProgress, pausePressedLastFrame := true, remainingLives := 3 }

/-- C6 counterexample: a frame with the pause key down that was already down
on the previous frame can still change the state — the held key skips the
pause toggle, but the in-progress victory check fires on the empty brick
group, so the frame ends `Victory`, not `InProgress`. -/
theorem pause_toggle_cex :
    inpP.pDown = true ∧ gVic.pausePressedLastFrame = true
    ∧ gVic.state = .inProgress
    ∧ (gVic.step inpP).state = .victory
    ∧ (gVic.step inpP).state ≠ gVic.state :=
  ⟨rfl, rfl, rfl, by decide, by decide⟩

/-- Concrete game of the C6 witness: in progress, pause key released. -/
def gIP : Game :=
  { manager := { next := 1, entities := [(0, .ball Game.newBall)],
                 ballG := [0], paddleG := [], brickG := [] },
    state := .inProgress, pausePressedLastFrame := false, remainingLives := 3 }

/-- C6 witness: a key-down edge on an `InProgress` frame ends it `Paused`
with the edge detector recording the key. -/
theorem pause_toggle_spec_w :
    (gIP.step inpP).state = .paused ∧ (gIP.step inpP).pausePressedLastFrame = true :=
  (pause_toggle_spec gIP inpP).1 rfl rfl rfl rfl

/-! ## Ball respawn -/

theorem simPhase_manager_respawn (inp : Input) (g : Game) (hs : g.state = .inProgress)
    (hbe : ((g.manager.groups .ball).isEmpty) = true) :
    (simPhase inp g).manager =
      (collisionPass ((g.manager.create (.ball Game.newBall)).update inp)).refresh := by
  unfold simPhase
  rw [if_pos hs, if_pos hbe]
  dsimp only
  split_ifs <;> rfl

/-- The respawned ball survives the frame: the fresh id is appended to the
empty ball group, the new ball moves from the screen center to (392, 292)
without touching a bound, no collision marks a ball destroyed, and the sweep
keeps it. -/
theorem respawn_pipeline (m : Manager) (inp : Input) (hbe : m.ballG = [])
    (hfresh : m.FreshIds) :
    ((collisionPass ((m.create (.ball Game.newBall)).update inp)).refresh).ballG =
      [m.next] := by
  have hg : (m.create (.ball Game.newBall)).ballG = [m.next] := by
    rw [(create_ball_groups m Game.newBall).1, hbe]
    rfl
  have hget : (m.create (.ball Game.newBall)).getEnt m.next = some (.ball Game.newBall) :=
    getEnt_create_self hfresh _
  have hget2 : ((m.create (.ball Game.newBall)).update inp).getEnt m.next =
      some (.ball (Ball.update Game.newBall)) := by
    rw [getEnt_update, hget]
    rfl
  have hgroups : ((m.create (.ball Game.newBall)).update inp).ballG = [m.next] := hg
  obtain ⟨b2, hb2, hd2⟩ := ballAt_collisionPass hgroups hget2
  have hdf : b2.destroyed = false := by
    rw [hd2]
    decide
  have hcg : (collisionPass ((m.create (.ball Game.newBall)).update inp)).ballG = [m.next] :=
    (collisionPass_fields _).2.1.trans hgroups
  show ((collisionPass ((m.create (.ball Game.newBall)).update inp)).ballG.filter _) = _
  rw [hcg]
  have hda : (collisionPass ((m.create (.ball Game.newBall)).update inp)).destroyedAt m.next =
      false := by
    rw [destroyedAt_getEnt hb2]
    exact hdf
  simp [List.filter, hda]

/-- C5 (amended): an `InProgress` frame that begins with an empty ball group
spawns exactly one replacement ball — at the fixed screen-center spawn point
`(wndWidth / 2, wndHeight / 2)`, not a top-of-screen point — and decrements
`remainingLives` before the victory and game-over checks run; a frame
starting with `remainingLives = 1` therefore ends at lives 0 in `GameOver`;
and a `GameOver` frame (restart key aside) leaves everything except the
pause flag unchanged, so no further replacement balls are spawned. -/
theorem ball_respawn (g : Game) (inp : Input) :
    (inp.pDown = false → inp.rDown = false → g.state = .inProgress →
      g.manager.groups .ball = [] → g.manager.FreshIds →
      (g.step inp).remainingLives = g.remainingLives - 1
      ∧ (g.step inp).manager.groups .ball = [g.manager.next]
      ∧ (g.step inp).state =
          (if g.remainingLives - 1 ≤ 0 then .gameOver
           else if (g.manager.groups .brick).isEmpty then .victory else .inProgress))
    ∧ (g.state = .gameOver → inp.rDown = false →
        g.step inp = { g with pausePressedLastFrame := inp.pDown })
    ∧ Game.newBall.x = wndWidth / 2 ∧ Game.newBall.y = wndHeight / 2 := by
  refine ⟨?_, ?_, rfl, rfl⟩
  · intro hp hr hs hbe hfresh
    unfold Game.step
    rw [pausePhase_noKey g hp, restartPhase_id _ hr]
    obtain ⟨hst, hlv, _⟩ :=
      simPhase_inProgress inp { g with pausePressedLastFrame := false } hs
    have hbe' : ((({ g with pausePressedLastFrame := false } : Game)).manager.groups
        .ball).isEmpty = true := by
      show (g.manager.groups .ball).isEmpty = true
      rw [hbe]
      rfl
    refine ⟨?_, ?_, ?_⟩
    · rw [hlv, if_pos hbe']
    · rw [simPhase_manager_respawn inp { g with pausePressedLastFrame := false } hs hbe']
      exact respawn_pipeline g.manager inp hbe hfresh
    · rw [hst, if_pos hbe']
  · intro hgo hr
    have h1 : pausePhase inp g = { g with pausePressedLastFrame := inp.pDown } := by
      unfold pausePhase
      split_ifs with h1 h2 <;> simp_all [pauseToggle]
    unfold Game.step
    rw [h1, restartPhase_id _ hr, simPhase_skip (by simp [hgo])]

/-- Manager of the C5 fixtures: one brick, no balls, no paddle. -/
def mResp : Manager :=
  { next := 1, entities := [(0, .brick (gridBrick 0 0))],
    ballG := [], paddleG := [], brickG := [0] }

/-- Concrete game of the C5 witness: in progress on the last life with the
sole ball just swept. -/
def gResp : Game :=
  { manager := mResp, state := .inProgress, pausePressedLastFrame := false,
    remainingLives := 1 }

/-- Concrete game of the C5 no-respawn check: the same registry, game over. -/
def gGO : Game :=
  { manager := mResp, state := .gameOver, pausePressedLastFrame := false,
    remainingLives := 0 }

/-- C5 witness: the last-life frame spawns exactly one replacement ball (id
1), drops to 0 lives, and ends `GameOver`; the following `GameOver` frame
changes nothing but the pause flag, so no further ball appears. -/
theorem ball_respawn_w :
    (gResp.step inpNone).remainingLives = 0
    ∧ (gResp.step inpNone).manager.groups .ball = [1]
    ∧ (gResp.step inpNone).state = .gameOver
    ∧ gGO.step inpNone = { gGO with pausePressedLastFrame := false } := by
  have h := (ball_respawn gResp inpNone).1 rfl rfl rfl (by decide) (by decide)
  refine ⟨?_, h.2.1, ?_, (ball_respawn gGO inpNone).2.1 rfl rfl⟩
  · rw [h.1]
    decide
  · rw [h.2.2]
    decide

/-- C5 counterexample: the replacement ball of a ball-less `InProgress`
frame is created at the screen center — its spawn y-coordinate is
`wndHeight / 2 = 300`, the vertical midpoint of the 600-unit screen, not a
top-of-screen point; the frame's end-of-frame ball is that center-spawned
ball after its first move. -/
theorem ball_respawn_cex :
    (gResp.step inpNone).manager.getEnt 1 = some (.ball (Ball.update Game.newBall))
    ∧ Game.newBall.y = wndHeight / 2
    ∧ ¬(Game.newBall.y < wndHeight / 2) :=
  ⟨by decide, by decide, by decide⟩

/-! ## Paddle bound invariant -/

/-- Bound every paddle entity actually satisfies: the velocity gate checks
the pre-move position, so each edge can overshoot the screen by strictly
less than one velocity step. -/
def PadOK : Entity → Prop
  | .paddle p => -Paddle.defVelocity < p.left ∧ p.right < wndWidth + Paddle.defVelocity
  | _ => True

instance (e : Entity) : Decidable (PadOK e) := by
  cases e <;> unfold PadOK <;> infer_instance

theorem PadOK_update (inp : Input) (e : Entity) (h : PadOK e) : PadOK (e.update inp) := by
  cases e with
  | ball b => trivial
  | brick br => trivial
  | paddle p =>
    obtain ⟨px, py, pvx, pvy, pd⟩ := p
    unfold PadOK at h ⊢
    simp only [Entity.update]
    unfold Paddle.update Paddle.processPlayerInput
    unfold Paddle.left Paddle.right at h ⊢
    simp only [Paddle.defWidth, Paddle.defVelocity, wndWidth] at h ⊢
    split_ifs with h1 h2
    · simp only [Bool.and_eq_true, decide_eq_true_eq] at h1
      dsimp only at h1 h ⊢
      omega
    · simp only [Bool.and_eq_true, decide_eq_true_eq] at h2
      dsimp only at h2 h ⊢
      omega
    · dsimp only at h ⊢
      omega

theorem paddlesOK_create {m : Manager} {e : Entity}
    (hm : ∀ pr ∈ m.entities, PadOK pr.2) (he : PadOK e) :
    ∀ pr ∈ (m.create e).entities, PadOK pr.2 := by
  intro pr hpr
  unfold Manager.create at hpr
  rcases List.mem_append.mp hpr with h | h
  · exact hm pr h
  · simp at h
    rw [h]
    exact he

theorem paddlesOK_setEnt {m : Manager} {id : Nat} {e : Entity}
    (hm : ∀ pr ∈ m.entities, PadOK pr.2) (he : PadOK e) :
    ∀ pr ∈ (m.setEnt id e).entities, PadOK pr.2 := by
  intro pr hpr
  unfold Manager.setEnt at hpr
  obtain ⟨q, hq, hqe⟩ := List.mem_map.mp hpr
  split_ifs at hqe
  · rw [← hqe]
    exact he
  · rw [← hqe]
    exact hm q hq

theorem paddlesOK_applyBrickBall {m : Manager} (i j : Nat)
    (hm : ∀ pr ∈ m.entities, PadOK pr.2) :
    ∀ pr ∈ (applyBrickBall m i j).entities, PadOK pr.2 := by
  unfold applyBrickBall
  split
  · exact paddlesOK_setEnt (paddlesOK_setEnt hm trivial) trivial
  · exact hm

theorem paddlesOK_applyPaddleBall {m : Manager} (i j : Nat)
    (hm : ∀ pr ∈ m.entities, PadOK pr.2) :
    ∀ pr ∈ (applyPaddleBall m i j).entities, PadOK pr.2 := by
  unfold applyPaddleBall
  split
  · exact paddlesOK_setEnt hm trivial
  · exact hm

theorem paddlesOK_foldl {α : Type} (f : Manager → α → Manager)
    (hf : ∀ m a, (∀ pr ∈ m.entities, PadOK pr.2) → ∀ pr ∈ (f m a).entities, PadOK pr.2)
    (l : List α) (m : Manager) (hm : ∀ pr ∈ m.entities, PadOK pr.2) :
    ∀ pr ∈ (l.foldl f m).entities, PadOK pr.2 := by
  induction l generalizing m with
  | nil => exact hm
  | cons a t ih => exact ih (f m a) (hf m a hm)

theorem paddlesOK_collisionPass {m : Manager}
    (hm : ∀ pr ∈ m.entities, PadOK pr.2) :
    ∀ pr ∈ (collisionPass m).entities, PadOK pr.2 := by
  unfold collisionPass
  refine paddlesOK_foldl _ ?_ _ m hm
  intro m' a hm'
  exact paddlesOK_foldl _ (fun m'' a' h => paddlesOK_applyPaddleBall a' a h) _ _
    (paddlesOK_foldl _ (fun m'' a' h => paddlesOK_applyBrickBall a' a h) _ _ hm')

theorem paddlesOK_update {m : Manager} (inp : Input)
    (hm : ∀ pr ∈ m.entities, PadOK pr.2) :
    ∀ pr ∈ (m.update inp).entities, PadOK pr.2 := by
  intro pr hpr
  unfold Manager.update at hpr
  obtain ⟨q, hq, hqe⟩ := List.mem_map.mp hpr
  rw [← hqe]
  exact PadOK_update inp q.2 (hm q hq)

theorem paddlesOK_refresh {m : Manager}
    (hm : ∀ pr ∈ m.entities, PadOK pr.2) :
    ∀ pr ∈ m.refresh.entities, PadOK pr.2 := by
  intro pr hpr
  exact hm pr (List.mem_filter.mp hpr).1

theorem paddlesOK_restart (g : Game) :
    ∀ pr ∈ (Game.restart g).manager.entities, PadOK pr.2 := by
  have hm : (Game.restart g).manager = (initialGame0.restart).manager := rfl
  rw [hm]
  decide

theorem simPhase_manager (inp : Input) (g : Game) (hs : g.state = .inProgress) :
    (simPhase inp g).manager =
      (collisionPass (((if (g.manager.groups .ball).isEmpty
          then g.manager.create (.ball Game.newBall)
          else g.manager)).update inp)).refresh := by
  unfold simPhase
  rw [if_pos hs]
  dsimp only
  split_ifs <;> rfl

theorem paddlesOK_simPhase (inp : Input) (g : Game)
    (hm : ∀ pr ∈ g.manager.entities, PadOK pr.2) :
    ∀ pr ∈ (simPhase inp g).manager.entities, PadOK pr.2 := by
  by_cases hs : g.state = .inProgress
  · rw [simPhase_manager inp g hs]
    apply paddlesOK_refresh
    apply paddlesOK_collisionPass
    apply paddlesOK_update
    by_cases hbe : (g.manager.groups .ball).isEmpty <;> simp only [hbe, if_true, if_false]
    · exact paddlesOK_create hm trivial
    · simpa using hm
  · rw [simPhase_skip hs]
    exact hm

theorem paddlesOK_step (inp : Input) (g : Game)
    (hm : ∀ pr ∈ g.manager.entities, PadOK pr.2) :
    ∀ pr ∈ (g.step inp).manager.entities, PadOK pr.2 := by
  unfold Game.step
  apply paddlesOK_simPhase
  unfold restartPhase
  split_ifs with hr
  · exact paddlesOK_restart _
  · rw [pausePhase_manager]
    exact hm

theorem paddlesOK_reachable (g : Game) (h : Reachable g) :
    ∀ pr ∈ g.manager.entities, PadOK pr.2 := by
  induction h with
  | init => exact paddlesOK_restart initialGame0
  | step inp g2 hg ih => exact paddlesOK_step inp g2 ih

/-- C9 (amended): in every reachable game state, every paddle in the
registry satisfies `left > -defVelocity` and `right < wndWidth +
defVelocity`: the pre-move velocity gating keeps the paddle within the
screen extended by strictly less than one velocity step on either side (it
does not keep it strictly within the screen, and no post-move clamping
exists). -/
theorem paddle_bounds (g : Game) (hg : Reachable g) (id : Nat) (p : Paddle)
    (hmem : (id, Entity.paddle p) ∈ g.manager.entities) :
    -Paddle.defVelocity < p.left ∧ p.right < wndWidth + Paddle.defVelocity :=
  paddlesOK_reachable g hg (id, .paddle p) hmem

/-- C9 witness: the paddle of the freshly restarted game (id 45, centered at
x = 400) satisfies the bound. -/
theorem paddle_bounds_w :
    -Paddle.defVelocity < Game.newPaddle.left
    ∧ Game.newPaddle.right < wndWidth + Paddle.defVelocity :=
  paddle_bounds initialGame Reachable.init 45 Game.newPaddle (by decide)

/-- Paddle of the C9 counterexample: in bounds at left edge 2.  Such
positions occur in play: the paddle starts at left = 370 and moves in steps
of 8, and 370 mod 8 = 2. -/
def p9 : Paddle := { x := 32, y := 550, vx := 0, vy := 0, destroyed := false }

def inpL : Input := ⟨false, false, true, false⟩

/-- C9 counterexample: a paddle update from an in-bounds position (left edge
2 > 0, so the left-movement gate passes) moves the paddle to left edge
-6 < 0 — after the update the paddle is outside the screen. -/
theorem paddle_bounds_cex :
    0 < p9.left ∧ p9.right ≤ wndWidth ∧ (Paddle.update inpL p9).left < 0 :=
  ⟨by decide, by decide, by decide⟩

end Ark
